import Mathlib

/-!
Shallow embedding of src/hackassistant.py (class HackAssistant).
Python strings are modelled as List Char; the Python str methods used by
the source (strip, upper, lower, startswith, replace, split, substring
membership) are modelled by executable functions with the documented
CPython semantics.
-/

namespace HackAssistant

/-- Whitespace test matching the default whitespace set of Python
str.strip() and str.split(). -/
def pyIsSpace (c : Char) : Bool :=
  c = ' ' || c = '\t' || c = '\n' || c = '\r' || c = '\x0b' || c = '\x0c'

/-- Python str.strip(): drop whitespace from both ends. -/
def pyStrip (s : List Char) : List Char :=
  ((s.dropWhile pyIsSpace).reverse.dropWhile pyIsSpace).reverse

/-- Python str.upper(); the source only upper-cases ASCII marker values. -/
def pyUpper (s : List Char) : List Char := s.map Char.toUpper

/-- Python str.lower(); the source only lower-cases ASCII error output. -/
def pyLower (s : List Char) : List Char := s.map Char.toLower

/-- Python str.startswith: first argument is the pattern. -/
def pyStartswith : List Char → List Char → Bool
  | [], _ => true
  | _ :: _, [] => false
  | p :: ps, c :: cs => p == c && pyStartswith ps cs

/-- Python substring membership, pat in s (contiguous occurrence). -/
def containsSub (pat : List Char) : List Char → Bool
  | [] => pat.isEmpty
  | c :: rest => pyStartswith pat (c :: rest) || containsSub pat rest

/-- Fuel-indexed core of Python str.replace, structurally recursive on
the fuel; every step consumes at least one character, so fuel equal to
the string length never runs out and the zero-fuel arm is unreachable
from replaceAll. -/
def replaceAllF (old new : List Char) : Nat → List Char → List Char
  | _, [] => []
  | 0, c :: rest => c :: rest
  | fuel + 1, c :: rest =>
    if old ≠ [] ∧ pyStartswith old (c :: rest) = true then
      new ++ replaceAllF old new fuel ((c :: rest).drop old.length)
    else
      c :: replaceAllF old new fuel rest

/-- Python str.replace(old, new): replace every leftmost non-overlapping
occurrence, scanning left to right.  All call sites in the source pass a
nonempty old string. -/
def replaceAll (old new s : List Char) : List Char := replaceAllF old new s.length s

/-- Python s.split(sep) for the single-character separator used by the
source, ai_response.split of a newline: empty pieces are kept. -/
def splitLines : List Char → List (List Char)
  | [] => [[]]
  | c :: rest =>
    if c = '\n' then [] :: splitLines rest
    else
      match splitLines rest with
      | [] => [[c]]
      | l :: ls => (c :: l) :: ls

/-- Python str.split() with no argument: the maximal runs of
non-whitespace characters, in order; no empty tokens. -/
def pySplitWS (s : List Char) : List (List Char) :=
  (s.foldr
    (fun c acc =>
      if pyIsSpace c then [] :: acc
      else
        match acc with
        | [] => [[c]]
        | t :: ts => (c :: t) :: ts)
    []).filter (fun t => !t.isEmpty)

/-- Decimal rendering of an integer, for the f-string return-code lines. -/
def intToStr (i : Int) : List Char := (toString i).toList

/-! ## ResponseParser: the parsing part of _get_ai_response (lines 149-165)
and of _get_error_fix_suggestion (lines 381-388). -/

def RESPmark : List Char := "RESPONSE:".toList

def CMDmark : List Char := "COMMAND:".toList

def NONEtok : List Char := "NONE".toList

/-- Marker-value extraction exactly as the source computes it:
line.replace(marker, empty).strip(). -/
def stripMarker (mark line : List Char) : List Char := pyStrip (replaceAll mark [] line)

/-- One step of the line loop of _get_ai_response (lines 153-159):
the accumulator is (response_text, suggested_command). -/
def parseStep (acc : List Char × Option (List Char)) (line : List Char) :
    List Char × Option (List Char) :=
  if pyStartswith RESPmark line then
    (stripMarker RESPmark line, acc.2)
  else if pyStartswith CMDmark line then
    (let cmd := stripMarker CMDmark line
     if cmd ≠ [] ∧ pyUpper cmd ≠ NONEtok then (acc.1, some cmd) else acc)
  else acc

/-- Parsing part of _get_ai_response (lines 149-165), applied to the
already stripped reply text ai_response (the strip happens at line 146,
at the collaborator boundary).  Fallback of line 162: if no nonempty
RESPONSE value was kept, the whole reply becomes the explanation. -/
def parseAIReply (ai : List Char) : List Char × Option (List Char) :=
  let st := (splitLines ai).foldl parseStep ([], none)
  if st.1 = [] then (ai, st.2) else st

/-- Line loop of _get_error_fix_suggestion (lines 382-388): the first
COMMAND line with a nonempty, non-NONE value returns immediately. -/
def errorFixParse : List (List Char) → Option (List Char)
  | [] => none
  | line :: rest =>
    if pyStartswith CMDmark line then
      (let cmd := stripMarker CMDmark line
       if cmd ≠ [] ∧ pyUpper cmd ≠ NONEtok then some cmd else errorFixParse rest)
    else errorFixParse rest

/-- The error-fix parser applied to a stripped reply (line 379 strips). -/
def errorFixParseReply (ai : List Char) : Option (List Char) :=
  errorFixParse (splitLines ai)

/-! ## PatternDiagnostics: _analyze_command_output_for_errors (lines 332-362). -/

/-- The error_fixes dict (lines 337-349) in insertion order, which is the
iteration order of a Python dict; the command-not-found entry maps to
None and is handled by the special case before the table walk. -/
def errorFixes (command : List Char) : List (List Char × Option (List Char)) :=
  [("permission denied".toList, some ("sudo ".toList ++ command)),
   ("command not found".toList, none),
   ("no such file or directory".toList, some ("ls -la && ".toList ++ command)),
   ("connection refused".toList,
    some "Check if the service is running or firewall settings".toList),
   ("network unreachable".toList,
    some "Check network connectivity with: ping 8.8.8.8".toList),
   ("port already in use".toList,
    some "Check what\x27s using the port with: netstat -tulnp".toList),
   ("disk space".toList, some "Check disk usage with: df -h".toList),
   ("memory".toList, some "Check memory usage with: free -h".toList),
   ("syntax error".toList, some "Review the command syntax".toList),
   ("access denied".toList, some ("sudo ".toList ++ command)),
   ("authentication failed".toList, some "Check credentials or permissions".toList)]

/-- The generic table walk (lines 358-360).  Python tests the fix for
truthiness; every fix string in the table is nonempty, so truthiness
coincides with not being None. -/
def walkTable : List (List Char × Option (List Char)) → List Char → Option (List Char)
  | [], _ => none
  | (pat, fx) :: rest, outLower =>
    if containsSub pat outLower = true ∧ fx ≠ none then fx
    else walkTable rest outLower

/-- The install fix built at line 355 for a command-not-found failure. -/
def installFixFor (tok : List Char) : List Char :=
  "apt-get update && apt-get install -y ".toList ++ tok

/-- _analyze_command_output_for_errors (lines 332-362): the
command-not-found special case first (lines 352-355; cmd_name falsy
falls through to the generic walk), then the table walk. -/
def analyzeCommandOutputForErrors (command output : List Char) : Option (List Char) :=
  let outputLower := pyLower output
  if containsSub "command not found".toList outputLower = true then
    match pySplitWS command with
    | cmdName :: _ =>
      if cmdName ≠ [] then some (installFixFor cmdName)
      else walkTable (errorFixes command) outputLower
    | [] => walkTable (errorFixes command) outputLower
  else walkTable (errorFixes command) outputLower

/-! ## CommandRunner and RemediationController: _execute_command (lines 170-259).

The process-level collaborators (subprocess.run of the shell, the model
fix suggestion of _get_error_fix_suggestion, and the two consent reads of
_get_user_choice) are supplied as oracles; the function returns the
consolidated output string of the source together with the ordered trace
of effectful steps it performed, so that never-happens and at-most-once
properties are statable. -/

/-- Outcome of one subprocess.run call with capture_output and text. -/
structure ExecResult where
  stdout : List Char
  stderr : List Char
  returncode : Int
deriving DecidableEq

/-- Oracles for one _execute_command call: the original run result, the
model fix (None models both a NONE reply and a swallowed fault), the raw
operator input at each of the two consent reads, and the results of the
fix run and of the retry run, should they happen. -/
structure ExecOracles where
  origResult : ExecResult
  aiFix : Option (List Char)
  fixChoice : List Char
  fixResult : ExecResult
  retryChoice : List Char
  retryResult : ExecResult
deriving DecidableEq

/-- Trace of the effectful steps of _execute_command, in program order. -/
inductive Event where
  | runOrig (cmd : List Char) (r : ExecResult)
  | patternDiag (cmd errOutput : List Char) (res : Option (List Char))
  | aiDiag (cmd output : List Char) (res : Option (List Char))
  | promptFix (fix : List Char)
  | runFix (cmd : List Char) (r : ExecResult)
  | promptRetry
  | runRetry (cmd : List Char) (r : ExecResult)
deriving DecidableEq

/-- error_output of line 195: stderr if nonempty, else stdout. -/
def errSignal (r : ExecResult) : List Char :=
  if r.stderr ≠ [] then r.stderr else r.stdout

/-- The failure gate of line 191: nonzero return code and (stderr truthy
or the word error in lowered stdout). -/
def failCond (r : ExecResult) : Prop :=
  r.returncode ≠ 0 ∧ (r.stderr ≠ [] ∨ containsSub "error".toList (pyLower r.stdout) = true)

instance (r : ExecResult) : Decidable (failCond r) := by
  unfold failCond; infer_instance

/-- line 256 of the source: output if output else the success message. -/
def finalizeOutput (out : List Char) : List Char :=
  if out = [] then "Command executed successfully (no output)".toList else out

/-- Lines 203-254: a candidate fix exists.  Consent is read (strip and
lower happen inside _get_user_choice, line 264); on the affirmative token
the fix runs; only when the fix exits 0 is the retry consent read; on
retry consent the original command is re-run, and its result is only
formatted, never analysed again. -/
def fixRetryFlow (command : List Char) (o : ExecOracles) (output1 fix : List Char) :
    List Char × List Event :=
  let choice := pyLower (pyStrip o.fixChoice)
  if choice = "y".toList then
    let fr := o.fixResult
    let fixOutput :=
      (if fr.stdout ≠ [] then "FIX STDOUT:\n".toList ++ fr.stdout ++ "\n".toList else []) ++
      (if fr.stderr ≠ [] then "FIX STDERR:\n".toList ++ fr.stderr ++ "\n".toList else [])
    if fr.returncode = 0 then
      let rchoice := pyLower (pyStrip o.retryChoice)
      if rchoice = "y".toList then
        let rr := o.retryResult
        let retryOutput :=
          (if rr.stdout ≠ [] then "RETRY STDOUT:\n".toList ++ rr.stdout ++ "\n".toList else []) ++
          (if rr.stderr ≠ [] then "RETRY STDERR:\n".toList ++ rr.stderr ++ "\n".toList else []) ++
          (if rr.returncode ≠ 0 then
            "RETRY Return code: ".toList ++ intToStr rr.returncode ++ "\n".toList
           else [])
        (output1 ++ "\n--- AFTER FIX ---\n".toList ++ fixOutput ++
           "\n--- RETRY RESULT ---\n".toList ++ retryOutput,
         [Event.promptFix fix, Event.runFix fix fr, Event.promptRetry,
          Event.runRetry command rr])
      else
        (output1 ++ "\n--- FIX APPLIED ---\n".toList ++ fixOutput,
         [Event.promptFix fix, Event.runFix fix fr, Event.promptRetry])
    else
      (output1 ++ "\n--- FIX ATTEMPT FAILED ---\n".toList ++ fixOutput,
       [Event.promptFix fix, Event.runFix fix fr])
  else
    (output1, [Event.promptFix fix])

/-- Lines 182-186: the STDOUT and STDERR sections of the original run. -/
def origOutput (r : ExecResult) : List Char :=
  (if r.stdout ≠ [] then "STDOUT:\n".toList ++ r.stdout ++ "\n".toList else []) ++
  (if r.stderr ≠ [] then "STDERR:\n".toList ++ r.stderr ++ "\n".toList else [])

/-- Line 188: the sections plus the return-code line, appended only on a
nonzero exit code. -/
def origOutputWithCode (r : ExecResult) : List Char :=
  origOutput r ++ "Return code: ".toList ++ intToStr r.returncode ++ "\n".toList

/-- _execute_command (lines 170-256): run the command, format STDOUT and
STDERR sections, and on the failure gate run pattern diagnostics, then
model diagnostics if the pattern step found nothing, then the fix and
retry flow if a candidate fix exists. -/
def executeCommand (command : List Char) (o : ExecOracles) : List Char × List Event :=
  let result := o.origResult
  if result.returncode ≠ 0 then
    let output1 := origOutputWithCode result
    if result.stderr ≠ [] ∨ containsSub "error".toList (pyLower result.stdout) = true then
      let errorOutput := errSignal result
      let patFix := analyzeCommandOutputForErrors command errorOutput
      match patFix with
      | some fix =>
        let r := fixRetryFlow command o output1 fix
        (finalizeOutput r.1,
         [Event.runOrig command result, Event.patternDiag command errorOutput patFix] ++ r.2)
      | none =>
        match o.aiFix with
        | some fix =>
          let r := fixRetryFlow command o output1 fix
          (finalizeOutput r.1,
           [Event.runOrig command result, Event.patternDiag command errorOutput none,
            Event.aiDiag command output1 o.aiFix] ++ r.2)
        | none =>
          (finalizeOutput output1,
           [Event.runOrig command result, Event.patternDiag command errorOutput none,
            Event.aiDiag command output1 none])
    else (finalizeOutput output1, [Event.runOrig command result])
  else (finalizeOutput (origOutput result), [Event.runOrig command result])

/-- Recognisers for trace events, used to count occurrences. -/
def isRunFix : Event → Bool
  | .runOrig _ _ => false
  | .patternDiag _ _ _ => false
  | .aiDiag _ _ _ => false
  | .promptFix _ => false
  | .runFix _ _ => true
  | .promptRetry => false
  | .runRetry _ _ => false

def isRunRetry : Event → Bool
  | .runOrig _ _ => false
  | .patternDiag _ _ _ => false
  | .aiDiag _ _ _ => false
  | .promptFix _ => false
  | .runFix _ _ => false
  | .promptRetry => false
  | .runRetry _ _ => true

def isPatternDiag : Event → Bool
  | .runOrig _ _ => false
  | .patternDiag _ _ _ => true
  | .aiDiag _ _ _ => false
  | .promptFix _ => false
  | .runFix _ _ => false
  | .promptRetry => false
  | .runRetry _ _ => false

def isAIDiag : Event → Bool
  | .runOrig _ _ => false
  | .patternDiag _ _ _ => false
  | .aiDiag _ _ _ => true
  | .promptFix _ => false
  | .runFix _ _ => false
  | .promptRetry => false
  | .runRetry _ _ => false

/-- The section label of line 252, marking the FixFailed outcome. -/
def fixFailedMarker : List Char := "--- FIX ATTEMPT FAILED ---".toList

/-! ## ConversationLog: conversation_history and its window (lines 103-139),
and the error-fix prompt (lines 367-372). -/

/-- One entry of conversation_history (lines 105-109). -/
structure Turn where
  role : List Char
  content : List Char
  timestamp : List Char
deriving DecidableEq

/-- Line 121: recent_history is the last 20 entries when the log is
longer than 20, else the whole log. -/
def recentHistory (history : List Turn) : List Turn :=
  if history.length > 20 then history.drop (history.length - 20) else history

/-- History formatting of lines 124-137. -/
def formatTurn (msg : Turn) : List Char :=
  if msg.role = "system".toList then
    if pyStartswith "Executed command:".toList msg.content then
      "EXECUTED: ".toList ++ replaceAll "Executed command: ".toList [] msg.content ++ "\n".toList
    else if pyStartswith "Command output:".toList msg.content then
      "OUTPUT: ".toList ++ replaceAll "Command output: ".toList [] msg.content ++ "\n".toList
    else "SYSTEM: ".toList ++ msg.content ++ "\n".toList
  else pyUpper msg.role ++ ": ".toList ++ msg.content ++ "\n".toList

/-- The conversation context of lines 123-139: system prompt, the
formatted window, and the new user prompt. -/
def buildConversationContext (systemPrompt : List Char) (history : List Turn)
    (userPrompt : List Char) : List Char :=
  systemPrompt ++ "\n\nConversation History:\n".toList ++
    ((recentHistory history).map formatTurn).flatten ++
    "\nUSER: ".toList ++ userPrompt ++ "\n\nRespond in the specified format:".toList

/-- The error-fix prompt of lines 367-372: it is built from the failed
command and its output only; no conversation history enters it. -/
def errorFixPrompt (command output : List Char) : List Char :=
  "The command \x27".toList ++ command ++ "\x27 failed with this output:\n".toList ++
    output ++
    "\n\nPlease provide a specific Linux command to fix this error. Respond in format:\nRESPONSE: Brief explanation of the error\nCOMMAND: Single command to fix the issue, or NONE if cannot be fixed automatically".toList

/-! ## SessionLoop: the suggested-command consent step of run (lines 428-453). -/

/-- Observable effects of the consent step. -/
inductive LoopEvent where
  | execCommand (cmd : List Char)
  | histAppend (role content : List Char)
deriving DecidableEq

/-- Lines 428-453 of run, after a command was suggested: the raw operator
input is stripped and lowered by _get_user_choice; on the affirmative
token the runner is invoked and two system turns are appended; the
negative token and any other input invoke nothing and append nothing.
commandOutput is the string _execute_command would return on consent. -/
def handleSuggestedCommand (cmd choiceRaw commandOutput : List Char) : List LoopEvent :=
  let choice := pyLower (pyStrip choiceRaw)
  if choice = "y".toList then
    [LoopEvent.execCommand cmd,
     LoopEvent.histAppend "system".toList ("Executed command: ".toList ++ cmd),
     LoopEvent.histAppend "system".toList ("Command output: ".toList ++ commandOutput)]
  else if choice = "n".toList then []
  else []

/-! ## Helper lemmas about the string primitives. -/

theorem pyStartswith_self_append (p t : List Char) : pyStartswith p (p ++ t) = true := by
  induction p with
  | nil => rfl
  | cons c cs ih => simp [pyStartswith, ih]

theorem containsSub_ne_nil {p : List Char} (hp : p ≠ []) : containsSub p [] = false := by
  cases p with
  | nil => exact absurd rfl hp
  | cons c cs => rfl

theorem containsSub_cons_of_tail {p s : List Char} (c : Char)
    (h : containsSub p s = true) : containsSub p (c :: s) = true := by
  simp [containsSub, h]

theorem containsSub_append_right {p t : List Char} (s : List Char)
    (h : containsSub p t = true) : containsSub p (s ++ t) = true := by
  induction s with
  | nil => simpa using h
  | cons c cs ih => exact containsSub_cons_of_tail c ih

theorem containsSub_self_append (p t : List Char) (hp : p ≠ []) :
    containsSub p (p ++ t) = true := by
  cases p with
  | nil => exact absurd rfl hp
  | cons c cs =>
    simp only [List.cons_append, containsSub, Bool.or_eq_true]
    exact Or.inl (pyStartswith_self_append (c :: cs) t)

theorem replaceAllF_not_contains (old new : List Char) :
    ∀ (s : List Char) (fuel : Nat), s.length ≤ fuel →
      containsSub old s = false → replaceAllF old new fuel s = s := by
  intro s
  induction s with
  | nil => intro fuel _ _; cases fuel <;> rfl
  | cons c rest ih =>
    intro fuel hf hc
    cases fuel with
    | zero => simp at hf
    | succ f =>
      simp only [containsSub, Bool.or_eq_false_iff] at hc
      have hstep : replaceAllF old new (f + 1) (c :: rest)
          = c :: replaceAllF old new f rest := by
        simp only [replaceAllF]
        rw [if_neg (by simp [hc.1])]
      have hf2 : rest.length ≤ f := by
        simp only [List.length_cons] at hf
        omega
      rw [hstep, ih f hf2 hc.2]

theorem replaceAll_marker_drop {old : List Char} (new t : List Char) (hne : old ≠ [])
    (h : containsSub old t = false) :
    replaceAll old new (old ++ t) = new ++ t := by
  cases old with
  | nil => exact absurd rfl hne
  | cons p ps =>
    have hsw : pyStartswith (p :: ps) (p :: (ps ++ t)) = true := by
      rw [← List.cons_append]
      exact pyStartswith_self_append _ _
    unfold replaceAll
    rw [List.cons_append, List.length_cons]
    simp only [replaceAllF]
    rw [if_pos ⟨hne, hsw⟩, List.length_cons, List.drop_succ_cons, List.drop_left,
      replaceAllF_not_contains _ _ t _ (by rw [List.length_append]; omega) h]

theorem pySplitWS_mem_ne_nil {s t : List Char} (h : t ∈ pySplitWS s) : t ≠ [] := by
  unfold pySplitWS at h
  have h2 := (List.mem_filter.mp h).2
  simpa using h2

/-! ## Claim C6: command-not-found failures yield an install fix whose
package name is the first whitespace-delimited token of the command. -/

/-- C6: for every command whose output contains "command not found"
case-insensitively and whose command string has a first whitespace token,
pattern diagnostics returns the install command for that token. -/
theorem c6_install_uses_first_token (command output tok : List Char) (ts : List (List Char))
    (hsplit : pySplitWS command = tok :: ts)
    (hout : containsSub "command not found".toList (pyLower output) = true) :
    analyzeCommandOutputForErrors command output = some (installFixFor tok) := by
  have htok : tok ≠ [] := pySplitWS_mem_ne_nil (by rw [hsplit]; exact List.mem_cons_self _ _)
  unfold analyzeCommandOutputForErrors
  rw [if_pos hout, hsplit]
  simp [htok]

/-- Witness for C6, the scenario of the specification: command
"foo-cli status" failing with "bash: foo-cli: command not found". -/
theorem c6_install_witness :
    analyzeCommandOutputForErrors "foo-cli status".toList
        "bash: foo-cli: command not found".toList
      = some (installFixFor "foo-cli".toList) :=
  c6_install_uses_first_token _ _ "foo-cli".toList ["status".toList]
    (by decide) (by decide)

/-! ## Claim C10: the classifier is total and an empty or whitespace-only
command never produces an install fix. -/

theorem walkTable_shape (entries : List (List Char × Option (List Char)))
    (out f : List Char) (h : walkTable entries out = some f) :
    ∃ p, (p, some f) ∈ entries := by
  induction entries with
  | nil => simp [walkTable] at h
  | cons e rest ih =>
    obtain ⟨p, fx⟩ := e
    rw [walkTable.eq_def] at h
    simp only at h
    split at h
    · exact ⟨p, by simp [h]⟩
    · obtain ⟨p2, hp2⟩ := ih h
      exact ⟨p2, List.mem_cons_of_mem _ hp2⟩

/-- C10: the classifier is a total function (it is a Lean function on all
(command, output) pairs), and for a command with no whitespace token the
command-not-found special case is skipped: the result is exactly the
generic table walk, which never yields an install fix. -/
theorem c10_empty_command_total (command output : List Char)
    (hsplit : pySplitWS command = []) :
    analyzeCommandOutputForErrors command output
      = walkTable (errorFixes command) (pyLower output) ∧
    ∀ f, analyzeCommandOutputForErrors command output = some f →
      pyStartswith "apt-get".toList f = false := by
  have heq : analyzeCommandOutputForErrors command output
      = walkTable (errorFixes command) (pyLower output) := by
    simp only [analyzeCommandOutputForErrors, hsplit]
    split <;> rfl
  refine ⟨heq, ?_⟩
  intro f hf
  rw [heq] at hf
  obtain ⟨p, hp⟩ := walkTable_shape _ _ _ hf
  simp only [errorFixes, List.mem_cons, List.not_mem_nil, or_false, Prod.mk.injEq,
    Option.some.injEq] at hp
  rcases hp with ⟨_, hf2⟩ | ⟨_, hf2⟩ | ⟨_, hf2⟩ | ⟨_, hf2⟩ | ⟨_, hf2⟩ | ⟨_, hf2⟩ |
    ⟨_, hf2⟩ | ⟨_, hf2⟩ | ⟨_, hf2⟩ | ⟨_, hf2⟩ | ⟨_, hf2⟩
  all_goals first
    | exact Option.noConfusion hf2
    | (subst hf2; rfl)

/-- Witness for C10 at a whitespace-only command whose output contains
"command not found": no fix at all is produced, and in particular no
install fix. -/
theorem c10_empty_command_witness :
    analyzeCommandOutputForErrors "   ".toList "bash: : command not found".toList
      = walkTable (errorFixes "   ".toList) (pyLower "bash: : command not found".toList) :=
  (c10_empty_command_total "   ".toList "bash: : command not found".toList (by decide)).1

/-! ## Claim C1: advisory pattern-table entries. -/

/-- C1 (evidence of the code bug): on a failed command whose stderr
contains "Connection refused", pattern diagnostics returns the advisory
text of the table verbatim as the fix, and on operator consent the
remediation flow passes that advisory string to the shell runner as the
fix command, contradicting the specified NoFixFound resolution. -/
theorem c1_advisory_fix_reaches_runner :
    analyzeCommandOutputForErrors "curl http://localhost:9/".toList
        "curl: (7) Failed to connect: Connection refused".toList
      = some "Check if the service is running or firewall settings".toList ∧
    Event.runFix "Check if the service is running or firewall settings".toList
        ⟨[], [], 0⟩
      ∈ (executeCommand "curl http://localhost:9/".toList
          { origResult := ⟨[], "curl: (7) Failed to connect: Connection refused".toList, 7⟩,
            aiFix := none,
            fixChoice := "y".toList,
            fixResult := ⟨[], [], 0⟩,
            retryChoice := "n".toList,
            retryResult := ⟨[], [], 0⟩ }).2 :=
  ⟨by decide, by decide⟩

/-! ## Claim C4: declining the suggested command. -/

/-- C4: when the operator answers the execute-this-command prompt with
the negative token, the consent step produces no effects at all: the
runner is not invoked and nothing is appended to the history; and the
runner is invoked only on the affirmative token, and only on the
suggested command itself. -/
theorem c4_decline_no_invocation (cmd choiceRaw out : List Char) :
    (pyLower (pyStrip choiceRaw) = "n".toList →
      handleSuggestedCommand cmd choiceRaw out = []) ∧
    (∀ c, LoopEvent.execCommand c ∈ handleSuggestedCommand cmd choiceRaw out →
      pyLower (pyStrip choiceRaw) = "y".toList ∧ c = cmd) := by
  constructor
  · intro h
    simp [handleSuggestedCommand, h]
  · intro c hc
    simp [handleSuggestedCommand] at hc
    exact hc

/-- Witness for C4: a concrete declined suggestion yields no effects. -/
theorem c4_decline_witness :
    handleSuggestedCommand "ls -la".toList " N ".toList "out".toList = [] :=
  (c4_decline_no_invocation "ls -la".toList " N ".toList "out".toList).1 (by decide)

/-! ## Claim C8: the conversation window. -/

def sampleTurn : Turn := ⟨"user".toList, "hello".toList, []⟩

/-- C8 counterexample: the claim says the window of a normal suggestion
request never exceeds 10 entries; the suggestion-path window of an
11-turn log (lines 114-139 build the context for every suggestion
request) has 11 entries. -/
theorem c8_window_cx :
    (recentHistory (List.replicate 11 sampleTurn)).length = 11 := by decide

/-- C8 amended: the suggestion-request window is the most recent 20
turns in original insertion order (a suffix of the log, via drop) and
never exceeds 20 entries. -/
theorem c8_window_amended (history : List Turn) :
    (recentHistory history).length ≤ 20 ∧
    (∃ k, recentHistory history = history.drop k) ∧
    (history.length ≤ 20 → recentHistory history = history) ∧
    (20 < history.length →
      recentHistory history = history.drop (history.length - 20) ∧
      (recentHistory history).length = 20) := by
  unfold recentHistory
  by_cases h : history.length > 20
  · rw [if_pos h]
    refine ⟨?_, ⟨_, rfl⟩, ?_, fun _ => ⟨rfl, ?_⟩⟩
    · rw [List.length_drop]; omega
    · intro hle; omega
    · rw [List.length_drop]; omega
  · rw [if_neg h]
    exact ⟨by omega, ⟨0, by simp⟩, fun _ => rfl, fun hgt => absurd hgt h⟩

/-- Witness for C8 amended, at a 25-turn log: the window has exactly 20
entries. -/
theorem c8_window_witness :
    (recentHistory (List.replicate 25 sampleTurn)).length = 20 :=
  ((c8_window_amended (List.replicate 25 sampleTurn)).2.2.2 (by simp)).2

/-! ## Trace characterisation of the fix and retry flow. -/

theorem finalizeOutput_contains {out : List Char}
    (h : containsSub fixFailedMarker out = true) :
    containsSub fixFailedMarker (finalizeOutput out) = true := by
  unfold finalizeOutput
  split
  · rename_i hnil
    rw [hnil] at h
    exact absurd h (by decide)
  · exact h

theorem contains_fixFailedMarker (a b : List Char) :
    containsSub fixFailedMarker (a ++ "\n--- FIX ATTEMPT FAILED ---\n".toList ++ b) = true := by
  rw [List.append_assoc]
  apply containsSub_append_right
  rw [show ("\n--- FIX ATTEMPT FAILED ---\n".toList : List Char)
        = '\n' :: (fixFailedMarker ++ "\n".toList) from by decide]
  rw [List.cons_append]
  apply containsSub_cons_of_tail
  rw [List.append_assoc]
  exact containsSub_self_append _ _ (by decide)

/-- The four possible traces of the fix and retry flow: declined, fix
failed (with the FixFailed marker in the output), fix succeeded and retry
declined, fix succeeded and retry run. -/
theorem frf_events (c : List Char) (o : ExecOracles) (out1 fix : List Char) :
    (fixRetryFlow c o out1 fix).2 = [Event.promptFix fix] ∨
    ((fixRetryFlow c o out1 fix).2 = [Event.promptFix fix, Event.runFix fix o.fixResult] ∧
      o.fixResult.returncode ≠ 0 ∧
      containsSub fixFailedMarker (fixRetryFlow c o out1 fix).1 = true) ∨
    ((fixRetryFlow c o out1 fix).2
        = [Event.promptFix fix, Event.runFix fix o.fixResult, Event.promptRetry] ∧
      o.fixResult.returncode = 0) ∨
    ((fixRetryFlow c o out1 fix).2
        = [Event.promptFix fix, Event.runFix fix o.fixResult, Event.promptRetry,
           Event.runRetry c o.retryResult] ∧
      o.fixResult.returncode = 0) := by
  simp only [fixRetryFlow]
  split
  · split
    · split
      · exact Or.inr (Or.inr (Or.inr ⟨rfl, by assumption⟩))
      · exact Or.inr (Or.inr (Or.inl ⟨rfl, by assumption⟩))
    · exact Or.inr (Or.inl ⟨rfl, by assumption, contains_fixFailedMarker _ _⟩)
  · exact Or.inl rfl

/-- The possible traces of _execute_command: no failure gate (single run),
or the gate with a pattern fix, a model fix, or no fix at all. -/
theorem executeCommand_events (cmd : List Char) (o : ExecOracles) :
    (¬ failCond o.origResult ∧
      (executeCommand cmd o).2 = [Event.runOrig cmd o.origResult]) ∨
    (failCond o.origResult ∧
      ((∃ fix,
          analyzeCommandOutputForErrors cmd (errSignal o.origResult) = some fix ∧
          (executeCommand cmd o).1
            = finalizeOutput (fixRetryFlow cmd o (origOutputWithCode o.origResult) fix).1 ∧
          (executeCommand cmd o).2
            = Event.runOrig cmd o.origResult ::
              Event.patternDiag cmd (errSignal o.origResult) (some fix) ::
              (fixRetryFlow cmd o (origOutputWithCode o.origResult) fix).2) ∨
       (analyzeCommandOutputForErrors cmd (errSignal o.origResult) = none ∧
          ∃ fix, o.aiFix = some fix ∧
          (executeCommand cmd o).1
            = finalizeOutput (fixRetryFlow cmd o (origOutputWithCode o.origResult) fix).1 ∧
          (executeCommand cmd o).2
            = Event.runOrig cmd o.origResult ::
              Event.patternDiag cmd (errSignal o.origResult) none ::
              Event.aiDiag cmd (origOutputWithCode o.origResult) o.aiFix ::
              (fixRetryFlow cmd o (origOutputWithCode o.origResult) fix).2) ∨
       (analyzeCommandOutputForErrors cmd (errSignal o.origResult) = none ∧
          o.aiFix = none ∧
          (executeCommand cmd o).2
            = [Event.runOrig cmd o.origResult,
               Event.patternDiag cmd (errSignal o.origResult) none,
               Event.aiDiag cmd (origOutputWithCode o.origResult) none]))) := by
  simp only [executeCommand]
  split
  · split
    · refine Or.inr ⟨⟨by assumption, by assumption⟩, ?_⟩
      split
      · rename_i fix heq
        refine Or.inl ⟨fix, heq, rfl, ?_⟩
        rw [heq]
        simp
      · rename_i heq
        split
        · rename_i fix hai
          refine Or.inr (Or.inl ⟨heq, fix, hai, rfl, ?_⟩)
          rw [hai]
          simp
        · rename_i hai
          exact Or.inr (Or.inr ⟨heq, hai, rfl⟩)
    · rename_i h2
      exact Or.inl ⟨fun hf => absurd hf.2 h2, rfl⟩
  · rename_i h1
    exact Or.inl ⟨fun hf => absurd hf.1 h1, rfl⟩

/-! ## Claim C7: the failure gate. -/

/-- C7: the diagnosis and remediation sequence is entered exactly when
the original run has a nonzero exit code and (nonempty stderr or the word
error in lowered stdout); otherwise the trace is the single original run,
so no diagnostics, no fix and no retry happen. -/
theorem c7_failure_gate (cmd : List Char) (o : ExecOracles) :
    (failCond o.origResult ↔
      Event.patternDiag cmd (errSignal o.origResult)
          (analyzeCommandOutputForErrors cmd (errSignal o.origResult))
        ∈ (executeCommand cmd o).2) ∧
    (¬ failCond o.origResult →
      (executeCommand cmd o).2 = [Event.runOrig cmd o.origResult]) := by
  rcases executeCommand_events cmd o with ⟨hnf, hevs⟩ | ⟨hf, hcase⟩
  · refine ⟨⟨fun hx => absurd hx hnf, fun hmem => ?_⟩, fun _ => hevs⟩
    rw [hevs] at hmem
    simp at hmem
  · refine ⟨⟨fun _ => ?_, fun _ => hf⟩, fun hnf => absurd hf hnf⟩
    rcases hcase with ⟨fix, heq, _, hevs⟩ | ⟨heq, fix, _, _, hevs⟩ | ⟨heq, _, hevs⟩ <;>
      rw [hevs, heq] <;> simp

/-- Witness for C7: a successful command (exit code 0) produces the
single-run trace with no diagnostics. -/
theorem c7_failure_gate_witness :
    (executeCommand "ls".toList
        { origResult := ⟨"fine".toList, [], 0⟩,
          aiFix := none, fixChoice := [], fixResult := ⟨[], [], 0⟩,
          retryChoice := [], retryResult := ⟨[], [], 0⟩ }).2
      = [Event.runOrig "ls".toList ⟨"fine".toList, [], 0⟩] :=
  (c7_failure_gate "ls".toList _).2 (by decide)

/-! ## Claim C2: retry only after a successful fix. -/

/-- C2: the retry question is asked only when the fix run exited 0; and
whenever the fix run exited nonzero, no retry question is asked, no retry
run happens, and the consolidated output carries the fix-attempt-failed
section marking the FixFailed outcome. -/
theorem c2_retry_only_after_fix_success (cmd : List Char) (o : ExecOracles) :
    (Event.promptRetry ∈ (executeCommand cmd o).2 → o.fixResult.returncode = 0) ∧
    (∀ f r, Event.runFix f r ∈ (executeCommand cmd o).2 → r.returncode ≠ 0 →
      Event.promptRetry ∉ (executeCommand cmd o).2 ∧
      (∀ c2 r2, Event.runRetry c2 r2 ∉ (executeCommand cmd o).2) ∧
      containsSub fixFailedMarker (executeCommand cmd o).1 = true) := by
  rcases executeCommand_events cmd o with ⟨_, hevs⟩ | ⟨_, hcase⟩
  · rw [hevs]
    exact ⟨by simp, by simp⟩
  · rcases hcase with ⟨fix, _, hout, hevs⟩ | ⟨_, fix, _, hout, hevs⟩ | ⟨_, _, hevs⟩
    · rcases frf_events cmd o (origOutputWithCode o.origResult) fix with
        he | ⟨he, hrc2, hmark⟩ | ⟨he, hrc2⟩ | ⟨he, hrc2⟩ <;> rw [he] at hevs <;> rw [hevs]
      · exact ⟨by simp, by simp⟩
      · refine ⟨by simp, ?_⟩
        intro f r hmem hrc
        refine ⟨by simp, by simp, ?_⟩
        rw [hout]
        exact finalizeOutput_contains hmark
      · refine ⟨fun _ => hrc2, ?_⟩
        intro f r hmem hrc
        simp at hmem
        exact absurd (show r.returncode = 0 by rw [hmem.2]; exact hrc2) hrc
      · refine ⟨fun _ => hrc2, ?_⟩
        intro f r hmem hrc
        simp at hmem
        exact absurd (show r.returncode = 0 by rw [hmem.2]; exact hrc2) hrc
    · rcases frf_events cmd o (origOutputWithCode o.origResult) fix with
        he | ⟨he, hrc2, hmark⟩ | ⟨he, hrc2⟩ | ⟨he, hrc2⟩ <;> rw [he] at hevs <;> rw [hevs]
      · exact ⟨by simp, by simp⟩
      · refine ⟨by simp, ?_⟩
        intro f r hmem hrc
        refine ⟨by simp, by simp, ?_⟩
        rw [hout]
        exact finalizeOutput_contains hmark
      · refine ⟨fun _ => hrc2, ?_⟩
        intro f r hmem hrc
        simp at hmem
        exact absurd (show r.returncode = 0 by rw [hmem.2]; exact hrc2) hrc
      · refine ⟨fun _ => hrc2, ?_⟩
        intro f r hmem hrc
        simp at hmem
        exact absurd (show r.returncode = 0 by rw [hmem.2]; exact hrc2) hrc
    · rw [hevs]
      exact ⟨by simp, by simp⟩

/-- Witness for C2: in a full consented run whose retry question was
asked, the fix result indeed exited 0. -/
theorem c2_retry_witness :
    (ExecOracles.fixResult
      { origResult := ⟨[], "cat: /etc/shadow: Permission denied".toList, 1⟩,
        aiFix := none, fixChoice := "y".toList, fixResult := ⟨[], [], 0⟩,
        retryChoice := "y".toList, retryResult := ⟨"ok".toList, [], 0⟩ }).returncode = 0 :=
  (c2_retry_only_after_fix_success "cat /etc/shadow".toList _).1 (by decide)

/-! ## Claim C3: remediation depth is capped at one. -/

/-- C3: every _execute_command trace runs at most one fix command and at
most one retry, performs pattern diagnostics and model diagnostics at
most once each, every diagnostics step sees only the original failure
signal (stderr if nonempty, else stdout, of the original run — never the
retry result), and every retry runs exactly the original command. -/
theorem c3_single_fix_single_retry (cmd : List Char) (o : ExecOracles) :
    (((executeCommand cmd o).2.filter isRunFix).length ≤ 1) ∧
    (((executeCommand cmd o).2.filter isRunRetry).length ≤ 1) ∧
    (((executeCommand cmd o).2.filter isPatternDiag).length ≤ 1) ∧
    (((executeCommand cmd o).2.filter isAIDiag).length ≤ 1) ∧
    (∀ c e res, Event.patternDiag c e res ∈ (executeCommand cmd o).2 →
      c = cmd ∧ e = errSignal o.origResult) ∧
    (∀ c r, Event.runRetry c r ∈ (executeCommand cmd o).2 → c = cmd) := by
  rcases executeCommand_events cmd o with ⟨_, hevs⟩ | ⟨_, hcase⟩
  · rw [hevs]
    simp [List.filter_cons, isRunFix, isRunRetry, isPatternDiag, isAIDiag]
  · rcases hcase with ⟨fix, _, _, hevs⟩ | ⟨_, fix, _, _, hevs⟩ | ⟨_, _, hevs⟩
    · rcases frf_events cmd o (origOutputWithCode o.origResult) fix with
        he | ⟨he, _, _⟩ | ⟨he, _⟩ | ⟨he, _⟩ <;> rw [he] at hevs <;> rw [hevs] <;>
        refine ⟨by simp [List.filter_cons, isRunFix], by simp [List.filter_cons, isRunRetry],
          by simp [List.filter_cons, isPatternDiag], by simp [List.filter_cons, isAIDiag],
          ?_, ?_⟩
      · intro c e res hmem
        simp at hmem
        exact ⟨hmem.1, hmem.2.1⟩
      · intro c r hmem
        simp at hmem
      · intro c e res hmem
        simp at hmem
        exact ⟨hmem.1, hmem.2.1⟩
      · intro c r hmem
        simp at hmem
      · intro c e res hmem
        simp at hmem
        exact ⟨hmem.1, hmem.2.1⟩
      · intro c r hmem
        simp at hmem
      · intro c e res hmem
        simp at hmem
        exact ⟨hmem.1, hmem.2.1⟩
      · intro c r hmem
        simp at hmem
        exact hmem.1
    · rcases frf_events cmd o (origOutputWithCode o.origResult) fix with
        he | ⟨he, _, _⟩ | ⟨he, _⟩ | ⟨he, _⟩ <;> rw [he] at hevs <;> rw [hevs] <;>
        refine ⟨by simp [List.filter_cons, isRunFix], by simp [List.filter_cons, isRunRetry],
          by simp [List.filter_cons, isPatternDiag], by simp [List.filter_cons, isAIDiag],
          ?_, ?_⟩
      · intro c e res hmem
        simp at hmem
        exact ⟨hmem.1, hmem.2.1⟩
      · intro c r hmem
        simp at hmem
      · intro c e res hmem
        simp at hmem
        exact ⟨hmem.1, hmem.2.1⟩
      · intro c r hmem
        simp at hmem
      · intro c e res hmem
        simp at hmem
        exact ⟨hmem.1, hmem.2.1⟩
      · intro c r hmem
        simp at hmem
      · intro c e res hmem
        simp at hmem
        exact ⟨hmem.1, hmem.2.1⟩
      · intro c r hmem
        simp at hmem
        exact hmem.1
    · rw [hevs]
      refine ⟨by simp [List.filter_cons, isRunFix], by simp [List.filter_cons, isRunRetry],
        by simp [List.filter_cons, isPatternDiag], by simp [List.filter_cons, isAIDiag],
        ?_, ?_⟩
      · intro c e res hmem
        simp at hmem
        exact ⟨hmem.1, hmem.2.1⟩
      · intro c r hmem
        simp at hmem

/-- Witness for C3: in a fully consented fix-and-retry run the fix is
still executed at most once. -/
theorem c3_depth_witness :
    (((executeCommand "cat /etc/shadow".toList
        { origResult := ⟨[], "cat: /etc/shadow: Permission denied".toList, 1⟩,
          aiFix := none, fixChoice := "y".toList, fixResult := ⟨[], [], 0⟩,
          retryChoice := "y".toList, retryResult := ⟨"ok".toList, [], 0⟩ }).2.filter
      isRunFix).length ≤ 1) :=
  (c3_single_fix_single_retry "cat /etc/shadow".toList _).1

/-! ## Parser lemmas: the fold of parseStep splits into independent folds
for the explanation component and the command component. -/

/-- The explanation component of one parseStep. -/
def respStep (acc : List Char) (line : List Char) : List Char :=
  if pyStartswith RESPmark line then stripMarker RESPmark line else acc

/-- The command component of one parseStep. -/
def cmdStep (acc : Option (List Char)) (line : List Char) : Option (List Char) :=
  if pyStartswith RESPmark line then acc
  else if pyStartswith CMDmark line then
    (let cmd := stripMarker CMDmark line
     if cmd ≠ [] ∧ pyUpper cmd ≠ NONEtok then some cmd else acc)
  else acc

theorem parseStep_eq (r : List Char) (c : Option (List Char)) (line : List Char) :
    parseStep (r, c) line = (respStep r line, cmdStep c line) := by
  simp only [parseStep, respStep, cmdStep]
  split
  · rfl
  · split
    · split
      · rfl
      · rfl
    · rfl

theorem foldl_parseStep_split (lines : List (List Char)) :
    ∀ (r : List Char) (c : Option (List Char)),
      lines.foldl parseStep (r, c) = (lines.foldl respStep r, lines.foldl cmdStep c) := by
  induction lines with
  | nil => intro r c; rfl
  | cons l rest ih =>
    intro r c
    simp only [List.foldl_cons, parseStep_eq]
    exact ih _ _

theorem respFold_no_match : ∀ (lines : List (List Char)) (r : List Char),
    (∀ l ∈ lines, pyStartswith RESPmark l = false) →
    lines.foldl respStep r = r := by
  intro lines
  induction lines with
  | nil => intro r _; rfl
  | cons l rest ih =>
    intro r h
    have hl := h l (List.mem_cons_self _ _)
    simp only [List.foldl_cons]
    rw [show respStep r l = r from by simp [respStep, hl]]
    exact ih r (fun x hx => h x (List.mem_cons_of_mem _ hx))

theorem respFold_unique (lR : List Char) : ∀ (lines : List (List Char)) (r : List Char),
    lR ∈ lines →
    (∀ l ∈ lines, pyStartswith RESPmark l = true → l = lR) →
    pyStartswith RESPmark lR = true →
    lines.foldl respStep r = stripMarker RESPmark lR := by
  intro lines
  induction lines with
  | nil => intro r hmem _ _; simp at hmem
  | cons l rest ih =>
    intro r hmem huni hR
    simp only [List.foldl_cons]
    by_cases hin : lR ∈ rest
    · exact ih _ hin (fun x hx hpx => huni x (List.mem_cons_of_mem _ hx) hpx) hR
    · have hl : l = lR := by
        rcases List.mem_cons.mp hmem with h | h
        · exact h.symm
        · exact absurd h hin
      subst hl
      rw [show respStep r l = stripMarker RESPmark l from by simp [respStep, hR]]
      apply respFold_no_match
      intro x hx
      by_cases hpx : pyStartswith RESPmark x = true
      · exact absurd (huni x (List.mem_cons_of_mem _ hx) hpx ▸ hx) hin
      · simpa using hpx

theorem cmdFold_no_match : ∀ (lines : List (List Char)) (c : Option (List Char)),
    (∀ l ∈ lines, pyStartswith CMDmark l = true →
      ¬(stripMarker CMDmark l ≠ [] ∧ pyUpper (stripMarker CMDmark l) ≠ NONEtok)) →
    lines.foldl cmdStep c = c := by
  intro lines
  induction lines with
  | nil => intro c _; rfl
  | cons l rest ih =>
    intro c h
    have hstep : cmdStep c l = c := by
      by_cases h1 : pyStartswith RESPmark l = true
      · simp [cmdStep, h1]
      · by_cases h2 : pyStartswith CMDmark l = true
        · have h3 := h l (List.mem_cons_self _ _) h2
          simp [cmdStep, h1, h2, h3]
        · simp [cmdStep, h1, h2]
    simp only [List.foldl_cons]
    rw [hstep]
    exact ih c (fun x hx => h x (List.mem_cons_of_mem _ hx))

theorem pyStartswith_head {p c : Char} {ps cs : List Char}
    (h : pyStartswith (p :: ps) (c :: cs) = true) : p = c := by
  simp only [pyStartswith, Bool.and_eq_true, beq_iff_eq] at h
  exact h.1

/-- The two markers cannot begin the same line: one starts with the
letter R, the other with the letter C. -/
theorem markers_exclusive (l : List Char) (hR : pyStartswith RESPmark l = true)
    (hC : pyStartswith CMDmark l = true) : False := by
  cases l with
  | nil => exact absurd hR (by decide)
  | cons a as =>
    have h1 : 'R' = a := pyStartswith_head (show pyStartswith ('R' :: "ESPONSE:".toList) (a :: as) = true from hR)
    have h2 : 'C' = a := pyStartswith_head (show pyStartswith ('C' :: "OMMAND:".toList) (a :: as) = true from hC)
    exact absurd (h1.trans h2.symm) (by decide)

theorem cmdFold_unique (lC : List Char) : ∀ (lines : List (List Char)) (c : Option (List Char)),
    lC ∈ lines →
    (∀ l ∈ lines, pyStartswith CMDmark l = true → l = lC) →
    pyStartswith CMDmark lC = true →
    stripMarker CMDmark lC ≠ [] →
    pyUpper (stripMarker CMDmark lC) ≠ NONEtok →
    lines.foldl cmdStep c = some (stripMarker CMDmark lC) := by
  intro lines
  induction lines with
  | nil => intro c hmem _ _ _ _; simp at hmem
  | cons l rest ih =>
    intro c hmem huni hC hne hnn
    simp only [List.foldl_cons]
    by_cases hin : lC ∈ rest
    · exact ih _ hin (fun x hx hpx => huni x (List.mem_cons_of_mem _ hx) hpx) hC hne hnn
    · have hl : l = lC := by
        rcases List.mem_cons.mp hmem with h | h
        · exact h.symm
        · exact absurd h hin
      subst hl
      have hnR : ¬ pyStartswith RESPmark l = true := fun hR => markers_exclusive l hR hC
      rw [show cmdStep c l = some (stripMarker CMDmark l) from by
        simp [cmdStep, hnR, hC, hne, hnn]]
      apply cmdFold_no_match
      intro x hx hpx
      exact absurd (huni x (List.mem_cons_of_mem _ hx) hpx ▸ hx) hin

/-! ## Claim C5: the response parser. -/

/-- C5 counterexample for the claim as stated: a whitespace-only reply
(which line 146 strips to empty before parsing) makes the parser return
an empty explanation, and when a marker value itself embeds the marker
text, the parser (which removes every occurrence, line 155) does not
return exactly the marked explanation text "a RESPONSE: b". -/
theorem c5_parser_cx :
    (parseAIReply (pyStrip "   ".toList)).1 = [] ∧
    (parseAIReply "RESPONSE: a RESPONSE: b\nCOMMAND: ls".toList).1
      ≠ "a RESPONSE: b".toList := by
  constructor
  · decide
  · decide

/-- C5 amended: for a reply with exactly one explanation-marker line and
exactly one command-marker line, whose values contain no further marker
occurrences, are nonempty after trimming, and whose command value is not
the sentinel, the parser returns exactly the marked explanation and the
marked command; for a reply with no marker line at all the explanation is
the whole reply and the command is absent; the parser always returns, and
the explanation is nonempty whenever the (stripped) reply is nonempty. -/
theorem c5_parser_amended :
    (∀ (ai tR tC : List Char),
      (RESPmark ++ tR) ∈ splitLines ai →
      (CMDmark ++ tC) ∈ splitLines ai →
      (∀ l ∈ splitLines ai, pyStartswith RESPmark l = true → l = RESPmark ++ tR) →
      (∀ l ∈ splitLines ai, pyStartswith CMDmark l = true → l = CMDmark ++ tC) →
      containsSub RESPmark tR = false →
      containsSub CMDmark tC = false →
      pyStrip tR ≠ [] →
      pyStrip tC ≠ [] →
      pyUpper (pyStrip tC) ≠ NONEtok →
      parseAIReply ai = (pyStrip tR, some (pyStrip tC))) ∧
    (∀ ai : List Char,
      (∀ l ∈ splitLines ai,
        pyStartswith RESPmark l = false ∧ pyStartswith CMDmark l = false) →
      parseAIReply ai = (ai, none)) ∧
    (∀ ai : List Char, ai ≠ [] → (parseAIReply ai).1 ≠ []) := by
  refine ⟨?_, ?_, ?_⟩
  · intro ai tR tC hmemR hmemC huniR huniC hcR hcC hneR hneC hnn
    have hstripR : stripMarker RESPmark (RESPmark ++ tR) = pyStrip tR := by
      unfold stripMarker
      rw [replaceAll_marker_drop [] tR (by decide) hcR, List.nil_append]
    have hstripC : stripMarker CMDmark (CMDmark ++ tC) = pyStrip tC := by
      unfold stripMarker
      rw [replaceAll_marker_drop [] tC (by decide) hcC, List.nil_append]
    have hR : pyStartswith RESPmark (RESPmark ++ tR) = true :=
      pyStartswith_self_append _ _
    have hC : pyStartswith CMDmark (CMDmark ++ tC) = true :=
      pyStartswith_self_append _ _
    have e1 : (splitLines ai).foldl respStep [] = pyStrip tR :=
      (respFold_unique (RESPmark ++ tR) (splitLines ai) [] hmemR huniR hR).trans hstripR
    have e2 : (splitLines ai).foldl cmdStep none = some (pyStrip tC) := by
      rw [cmdFold_unique (CMDmark ++ tC) (splitLines ai) none hmemC huniC hC
        (by rw [hstripC]; exact hneC) (by rw [hstripC]; exact hnn), hstripC]
    simp only [parseAIReply, foldl_parseStep_split, e1, e2]
    rw [if_neg hneR]
  · intro ai h
    have e1 : (splitLines ai).foldl respStep [] = [] :=
      respFold_no_match (splitLines ai) [] (fun l hl => (h l hl).1)
    have e2 : (splitLines ai).foldl cmdStep none = none :=
      cmdFold_no_match (splitLines ai) none
        (fun l hl hC => absurd hC (by simp [(h l hl).2]))
    simp only [parseAIReply, foldl_parseStep_split, e1, e2]
    simp
  · intro ai hne
    simp only [parseAIReply]
    split
    · exact hne
    · rename_i hst
      exact hst

/-- Witness for C5 amended, the scenario of the specification:
"RESPONSE: Lists files" and "COMMAND: ls -la". -/
theorem c5_parser_witness :
    parseAIReply "RESPONSE: Lists files\nCOMMAND: ls -la".toList
      = ("Lists files".toList, some "ls -la".toList) := by
  have h := c5_parser_amended.1 "RESPONSE: Lists files\nCOMMAND: ls -la".toList
    " Lists files".toList " ls -la".toList
    (by decide) (by decide) (by decide) (by decide) (by decide) (by decide)
    (by decide) (by decide) (by decide)
  rw [h]
  decide

/-! ## Claim C9: the NONE sentinel. -/

/-- C9: for both parsers, when every command-marker line of the reply
carries the sentinel value none in any letter case (its extracted value
upper-cases to NONE), the suggested command is absent and the error-fix
parser returns nothing. -/
theorem c9_none_sentinel (ai : List Char)
    (h : ∀ l ∈ splitLines ai, pyStartswith CMDmark l = true →
      pyUpper (stripMarker CMDmark l) = NONEtok) :
    (parseAIReply ai).2 = none ∧ errorFixParseReply ai = none := by
  constructor
  · have e2 : (splitLines ai).foldl cmdStep none = none :=
      cmdFold_no_match (splitLines ai) none
        (fun l hl hC hval => hval.2 (h l hl hC))
    simp only [parseAIReply, foldl_parseStep_split, e2]
    split <;> rfl
  · unfold errorFixParseReply
    have : ∀ (lines : List (List Char)),
        (∀ l ∈ lines, pyStartswith CMDmark l = true →
          pyUpper (stripMarker CMDmark l) = NONEtok) →
        errorFixParse lines = none := by
      intro lines
      induction lines with
      | nil => intro _; rfl
      | cons l rest ih =>
        intro hh
        by_cases hC : pyStartswith CMDmark l = true
        · have hval := hh l (List.mem_cons_self _ _) hC
          simp only [errorFixParse]
          rw [if_pos hC]
          have hcond : ¬(stripMarker CMDmark l ≠ [] ∧
              pyUpper (stripMarker CMDmark l) ≠ NONEtok) := fun hx => hx.2 hval
          rw [if_neg hcond]
          exact ih (fun x hx => hh x (List.mem_cons_of_mem _ hx))
        · simp only [errorFixParse]
          rw [if_neg hC]
          exact ih (fun x hx => hh x (List.mem_cons_of_mem _ hx))
    exact this _ h

/-- Witness for C9 at the reply "RESPONSE: ok" + "COMMAND: None": both
parsers yield no command. -/
theorem c9_none_sentinel_witness :
    (parseAIReply "RESPONSE: ok\nCOMMAND: None".toList).2 = none ∧
    errorFixParseReply "RESPONSE: ok\nCOMMAND: None".toList = none :=
  c9_none_sentinel "RESPONSE: ok\nCOMMAND: None".toList (by decide)

end HackAssistant
